import Mathlib

/-!
Verification development for the chai session broker.

The Go sources are shallowly embedded as pure Lean functions:
  - the sessions table and the session_events table become lists of records,
    SQL statements become list transformations that follow the statements of
    repository.go (types.go supplies the record shapes);
  - the in-memory permission table of claude.go becomes a function from
    request ids to optional pending requests, mirroring a Go map;
  - opaque JSON payloads (map[string]any values, marshaled lines) become a
    small Json value type; the outcome of json.Unmarshal on an inbound
    subprocess line is carried on the line record itself, since the raw
    bytes are opaque to the program logic under study;
  - the effectful call sites of the HTTP handler (JSON body parse, message
    insert, SSE flusher support, client writes, the subprocess run) are
    driven by an explicit environment record listing the outcome of each
    call, so every return statement of the Go handler corresponds to one
    branch of the Lean function.

Machine integers (int64) are modeled as Int; none of the verified paths can
overflow an int64 in a way the claims depend on.
-/

namespace Chai

/-- Minimal JSON value type for the opaque payloads (map[string]any and
marshaled lines). Object fields are kept in the order the marshaler emits
them. -/
inductive Json where
  | null : Json
  | bool (b : Bool) : Json
  | num (n : Int) : Json
  | str (s : String) : Json
  | arr (elems : List Json) : Json
  | obj (fields : List (String × Json)) : Json

/-- Field lookup in a JSON object, used to state theorems about the shape of
outbound lines. Returns none on non-objects and absent keys. -/
def Json.getField : Json → String → Option Json
  | .obj fields, key => (fields.find? (fun p => p.1 == key)).map (fun p => p.2)
  | _, _ => none

/-- StreamStatus from types.go: idle, streaming, completed. -/
inductive StreamStatus where
  | idle
  | streaming
  | completed
deriving DecidableEq, Repr

/-- Session from types.go / the sessions table. Timestamps are Unix seconds. -/
structure Session where
  id : String
  claudeSessionID : Option String
  title : Option String
  workingDirectory : Option String
  streamStatus : StreamStatus
  promptSequence : Int
  createdAt : Int
  updatedAt : Int
deriving DecidableEq, Repr

/-- SessionEvent from types.go / the session_events table. The data column
holds the marshaled payload text. -/
structure SessionEvent where
  id : Int
  sessionID : String
  promptID : String
  sequence : Int
  eventType : String
  data : String
  createdAt : Int
deriving DecidableEq, Repr

/-- Message from types.go / the messages table. The Go row also carries a
uuid primary key generated by an external library; that key is not read by
any code under study and is omitted here. -/
structure Message where
  sessionID : String
  role : String
  content : String
  toolCalls : Option String
  createdAt : Int
deriving DecidableEq, Repr

/-! ## Repository (repository.go)

The sessions table is a list of Session rows; id is the primary key, so the
theorems that need it assume the mapped ids are nodup. The session_events
table is a list of SessionEvent rows in insertion order. -/

/-- SELECT ... FROM sessions WHERE id = ? (first row with the given id). -/
def findSession (db : List Session) (sessionID : String) : Option Session :=
  db.find? (fun s => s.id == sessionID)

/-- UpdateSessionStreamStatus: UPDATE sessions SET stream_status = ?,
updated_at = ? WHERE id = ?. -/
def UpdateSessionStreamStatus (db : List Session) (sessionID : String)
    (status : StreamStatus) (now : Int) : List Session :=
  db.map fun s =>
    if s.id = sessionID then
      { s with streamStatus := status, updatedAt := now }
    else s

/-- UpdateSessionClaudeID: UPDATE sessions SET claude_session_id = ?,
updated_at = ? WHERE id = ?. -/
def UpdateSessionClaudeID (db : List Session) (sessionID claudeSessionID : String)
    (now : Int) : List Session :=
  db.map fun s =>
    if s.id = sessionID then
      { s with claudeSessionID := some claudeSessionID, updatedAt := now }
    else s

/-- Result of Repository.StartNewPrompt: the prompt id on success, or one of
the error returns (ErrSessionBusy, ErrSessionNotFound, or a database error
from the SELECT after the update, which cannot occur when ids are unique). -/
inductive StartResult where
  | ok (promptID : String)
  | busy
  | notFound
  | dbErr
deriving DecidableEq, Repr

/-- The conditional UPDATE inside StartNewPrompt: SET stream_status =
streaming, prompt_sequence = prompt_sequence + 1, updated_at = now WHERE
id = ? AND stream_status != streaming. -/
def claimUpdate (db : List Session) (now : Int) (sessionID : String) : List Session :=
  db.map fun s =>
    if s.id = sessionID ∧ s.streamStatus ≠ StreamStatus.streaming then
      { s with streamStatus := StreamStatus.streaming,
               promptSequence := s.promptSequence + 1,
               updatedAt := now }
    else s

/-- RowsAffected of the conditional UPDATE inside StartNewPrompt. -/
def claimRowsAffected (db : List Session) (sessionID : String) : Nat :=
  (db.filter fun s =>
    decide (s.id = sessionID ∧ s.streamStatus ≠ StreamStatus.streaming)).length

/-- Repository.StartNewPrompt: atomic conditional update; on zero rows
affected the transaction distinguishes absent from busy with a SELECT 1
probe and rolls back; otherwise it reads back prompt_sequence, commits, and
returns "sessionID-sequence". -/
def StartNewPrompt (db : List Session) (now : Int) (sessionID : String) :
    StartResult × List Session :=
  if claimRowsAffected db sessionID = 0 then
    match findSession db sessionID with
    | none => (.notFound, db)
    | some _ => (.busy, db)
  else
    let db1 := claimUpdate db now sessionID
    match findSession db1 sessionID with
    | none => (.dbErr, db)
    | some s => (.ok (sessionID ++ "-" ++ toString s.promptSequence), db1)

/-- The rows of session_events matching one (session_id, prompt_id) scope. -/
def eventsFor (log : List SessionEvent) (sessionID promptID : String) :
    List SessionEvent :=
  log.filter fun e => decide (e.sessionID = sessionID ∧ e.promptID = promptID)

/-- SQL MAX over a column: NULL (none) on the empty set. -/
def sqlMax (xs : List Int) : Option Int :=
  xs.foldl (fun acc x =>
    match acc with
    | none => some x
    | some m => some (max m x)) none

/-- SELECT COALESCE(MAX(sequence), 0) + 1 FROM session_events WHERE
session_id = ? AND prompt_id = ?. -/
def nextSequence (log : List SessionEvent) (sessionID promptID : String) : Int :=
  (sqlMax ((eventsFor log sessionID promptID).map SessionEvent.sequence)).getD 0 + 1

/-- Repository.CreateEvent: within one transaction, read the next sequence
for the (session, prompt) scope and insert the row. Returns the created
event and the grown table; the id argument stands for the autoincrement
rowid the database would assign. -/
def CreateEvent (log : List SessionEvent) (id : Int) (now : Int)
    (sessionID promptID eventType data : String) :
    SessionEvent × List SessionEvent :=
  let seq := nextSequence log sessionID promptID
  let e : SessionEvent :=
    { id := id, sessionID := sessionID, promptID := promptID,
      sequence := seq, eventType := eventType, data := data, createdAt := now }
  (e, log ++ [e])

/-- ORDER BY sequence ASC, as a relation on event rows. -/
def seqLE (a b : SessionEvent) : Prop := a.sequence ≤ b.sequence

instance : DecidableRel seqLE := fun a b =>
  inferInstanceAs (Decidable (a.sequence ≤ b.sequence))

instance : IsTotal SessionEvent seqLE :=
  ⟨fun a b => le_total a.sequence b.sequence⟩

instance : IsTrans SessionEvent seqLE :=
  ⟨fun _ _ _ hab hbc => le_trans hab hbc⟩

/-- Strict lexicographic comparison of character lists by codepoint, the
order the BINARY collation of the embedded database gives the text column
(memcmp on UTF-8 bytes agrees with codepoint order). -/
def charListLtb : List Char → List Char → Bool
  | [], [] => false
  | [], _ :: _ => true
  | _ :: _, [] => false
  | a :: as, b :: bs =>
    if a.toNat < b.toNat then true
    else if b.toNat < a.toNat then false
    else charListLtb as bs

/-- Strict text-column comparison of two strings. -/
def strBytesLt (a b : String) : Bool :=
  charListLtb a.data b.data

theorem charListLtb_trans : ∀ (as bs cs : List Char),
    charListLtb as bs = true → charListLtb bs cs = true →
    charListLtb as cs = true := by
  intro as
  induction as with
  | nil =>
    intro bs cs h1 h2
    cases bs with
    | nil => simp [charListLtb] at h1
    | cons b bs =>
      cases cs with
      | nil => simp [charListLtb] at h2
      | cons c cs => simp [charListLtb]
  | cons a as ih =>
    intro bs cs h1 h2
    cases bs with
    | nil => simp [charListLtb] at h1
    | cons b bs =>
      cases cs with
      | nil => simp [charListLtb] at h2
      | cons c cs =>
        simp only [charListLtb] at h1 h2 ⊢
        by_cases hab : a.toNat < b.toNat
        · by_cases hbc : b.toNat < c.toNat
          · rw [if_pos (show a.toNat < c.toNat by omega)]
          · rw [if_neg hbc] at h2
            by_cases hcb : c.toNat < b.toNat
            · rw [if_pos hcb] at h2
              exact absurd h2 (by simp)
            · rw [if_pos (show a.toNat < c.toNat by omega)]
        · rw [if_neg hab] at h1
          by_cases hba : b.toNat < a.toNat
          · rw [if_pos hba] at h1
            exact absurd h1 (by simp)
          · rw [if_neg hba] at h1
            by_cases hbc : b.toNat < c.toNat
            · rw [if_pos (show a.toNat < c.toNat by omega)]
            · rw [if_neg hbc] at h2
              by_cases hcb : c.toNat < b.toNat
              · rw [if_pos hcb] at h2
                exact absurd h2 (by simp)
              · rw [if_neg hcb] at h2
                rw [if_neg (show ¬ a.toNat < c.toNat by omega),
                  if_neg (show ¬ c.toNat < a.toNat by omega)]
                exact ih bs cs h1 h2

theorem charListLtb_eq_of_not_lt : ∀ (as bs : List Char),
    charListLtb as bs = false → charListLtb bs as = false → as = bs := by
  intro as
  induction as with
  | nil =>
    intro bs h1 _
    cases bs with
    | nil => rfl
    | cons b bs => simp [charListLtb] at h1
  | cons a as ih =>
    intro bs h1 h2
    cases bs with
    | nil => simp [charListLtb] at h2
    | cons b bs =>
      simp only [charListLtb] at h1 h2
      by_cases hab : a.toNat < b.toNat
      · rw [if_pos hab] at h1
        exact absurd h1 (by simp)
      · by_cases hba : b.toNat < a.toNat
        · rw [if_pos hba] at h2
          exact absurd h2 (by simp)
        · rw [if_neg hab, if_neg hba] at h1
          rw [if_neg hba, if_neg hab] at h2
          have hc : a = b := by
            have hn : a.toNat = b.toNat := by omega
            unfold Char.toNat at hn
            exact Char.eq_of_val_eq (UInt32.toNat.inj hn)
          rw [hc, ih bs h1 h2]

/-- ORDER BY prompt_id, sequence ASC: the text column in collation order,
then the integer column. -/
def promptSeqLE (a b : SessionEvent) : Prop :=
  strBytesLt a.promptID b.promptID = true ∨
    (a.promptID = b.promptID ∧ a.sequence ≤ b.sequence)

instance : DecidableRel promptSeqLE := fun _ _ =>
  inferInstanceAs (Decidable (_ ∨ _))

instance : IsTotal SessionEvent promptSeqLE := by
  constructor
  intro a b
  by_cases h1 : strBytesLt a.promptID b.promptID = true
  · exact Or.inl (Or.inl h1)
  · by_cases h2 : strBytesLt b.promptID a.promptID = true
    · exact Or.inr (Or.inl h2)
    · have hd : a.promptID.data = b.promptID.data :=
        charListLtb_eq_of_not_lt a.promptID.data b.promptID.data
          (by simpa [strBytesLt] using h1) (by simpa [strBytesLt] using h2)
      have hp : a.promptID = b.promptID := by
        calc a.promptID = ⟨a.promptID.data⟩ := rfl
        _ = ⟨b.promptID.data⟩ := by rw [hd]
        _ = b.promptID := rfl
      rcases le_total a.sequence b.sequence with h | h
      · exact Or.inl (Or.inr ⟨hp, h⟩)
      · exact Or.inr (Or.inr ⟨hp.symm, h⟩)

instance : IsTrans SessionEvent promptSeqLE := by
  constructor
  intro a b c hab hbc
  rcases hab with hab | ⟨hab, hab2⟩
  · rcases hbc with hbc | ⟨hbc, _⟩
    · exact Or.inl (charListLtb_trans _ _ _ hab hbc)
    · exact Or.inl (by rw [← hbc]; exact hab)
  · rcases hbc with hbc | ⟨hbc, hbc2⟩
    · exact Or.inl (by rw [hab]; exact hbc)
    · exact Or.inr ⟨hab.trans hbc, le_trans hab2 hbc2⟩

/-- SQL LIMIT: a negative limit means no limit in the embedded database; a
nonnegative limit truncates. -/
def sqlLimit (limit : Int) (rows : List SessionEvent) : List SessionEvent :=
  if limit < 0 then rows else rows.take limit.toNat

/-- Repository.GetEventsSince: with a prompt id, filter that scope on
sequence > since and order by sequence; with the empty prompt id, filter the
whole session on sequence > since and order by prompt_id then sequence. -/
def GetEventsSince (log : List SessionEvent) (sessionID : String)
    (sinceSequence : Int) (promptID : String) (limit : Int) :
    List SessionEvent :=
  if promptID ≠ "" then
    sqlLimit limit
      (List.insertionSort seqLE
        (log.filter fun e =>
          decide (e.sessionID = sessionID ∧ e.promptID = promptID ∧
            sinceSequence < e.sequence)))
  else
    sqlLimit limit
      (List.insertionSort promptSeqLE
        (log.filter fun e =>
          decide (e.sessionID = sessionID ∧ sinceSequence < e.sequence)))

/-! ## ClaudeManager (claude.go)

The pendingRequests Go map becomes a function from request ids to optional
pending requests; the processes Go map is abstracted to the list of session
ids that own a live process (the process handle itself carries no data the
verified paths read, beyond its stdin being writable). -/

/-- PendingRequest from claude.go. ToolInput is map[string]any; a Go nil map
is none, a non-nil map is some with its fields. -/
structure PendingRequest where
  requestID : String
  sessionID : String
  toolInput : Option (List (String × Json))

/-- The pendingRequests map of ClaudeManager. -/
def PendingTable := String → Option PendingRequest

/-- ClaudeManager.StorePendingRequest: unconditional upsert under the lock. -/
def StorePendingRequest (tbl : PendingTable) (sessionID requestID : String)
    (toolInput : Option (List (String × Json))) : PendingTable :=
  fun k =>
    if k = requestID then
      some { requestID := requestID, sessionID := sessionID, toolInput := toolInput }
    else tbl k

/-- ClaudeManager.GetPendingRequest: under the lock, look the id up and, when
present, delete it; returns the looked-up entry. -/
def GetPendingRequest (tbl : PendingTable) (requestID : String) :
    Option PendingRequest × PendingTable :=
  match tbl requestID with
  | some req => (some req, fun k => if k = requestID then none else tbl k)
  | none => (none, tbl)

/-- PermissionDecision from claude.go (the inner response object): behavior,
optional updatedInput, optional message. -/
structure PermissionDecision where
  behavior : String
  updatedInput : Option (List (String × Json))
  message : String

/-- NestedControlResponseBody from claude.go: subtype, request_id, optional
inner response, optional error text. -/
structure NestedControlResponseBody where
  subtype : String
  requestID : String
  response : Option PermissionDecision
  error : String

/-- NestedControlResponse from claude.go: the outbound envelope. -/
structure NestedControlResponse where
  type : String
  response : NestedControlResponseBody

/-- json.Marshal of PermissionDecision: behavior always; updatedInput has
omitempty, so a nil map and an empty map both drop the field; message has
omitempty, so the empty string drops the field. -/
def marshalPermissionDecision (d : PermissionDecision) : Json :=
  Json.obj
    ([("behavior", Json.str d.behavior)] ++
      (match d.updatedInput with
       | none => []
       | some m => if m.isEmpty then [] else [("updatedInput", Json.obj m)]) ++
      (if d.message = "" then [] else [("message", Json.str d.message)]))

/-- json.Marshal of NestedControlResponseBody: subtype and request_id always;
response and error both have omitempty (nil pointer and empty string drop). -/
def marshalControlBody (b : NestedControlResponseBody) : Json :=
  Json.obj
    ([("subtype", Json.str b.subtype), ("request_id", Json.str b.requestID)] ++
      (match b.response with
       | none => []
       | some d => [("response", marshalPermissionDecision d)]) ++
      (if b.error = "" then [] else [("error", Json.str b.error)]))

/-- json.Marshal of the full NestedControlResponse envelope. -/
def marshalNestedControlResponse (r : NestedControlResponse) : Json :=
  Json.obj [("type", Json.str r.type), ("response", marshalControlBody r.response)]

/-- The state of a ClaudeManager that the permission path reads and writes:
which sessions own a live process, and the pending-request table. -/
structure ManagerState where
  processes : List String
  pending : PendingTable

/-- ClaudeManager.SendPermissionResponse: fails when the session has no live
process; otherwise consumes the pending request (for both decisions), builds
the nested envelope — allow: subtype success with an inner response of
behavior allow echoing the captured input or an empty map; any other
decision: subtype error with the fixed denial text and no inner response —
marshals it and writes one line to the process stdin. stdinWriteOK is the
outcome of that write; on success the written line is returned. -/
def SendPermissionResponse (st : ManagerState) (sessionID requestID decision : String)
    (stdinWriteOK : Bool) : Except String Json × ManagerState :=
  if sessionID ∈ st.processes then
    let taken := GetPendingRequest st.pending requestID
    let pendingReq := taken.1
    let st1 : ManagerState := { st with pending := taken.2 }
    let response : NestedControlResponse :=
      if decision = "allow" then
        let updatedInput : List (String × Json) :=
          match pendingReq with
          | some req =>
            match req.toolInput with
            | some m => m
            | none => []
          | none => []
        { type := "control_response",
          response :=
            { subtype := "success", requestID := requestID,
              response := some
                { behavior := "allow", updatedInput := some updatedInput,
                  message := "" },
              error := "" } }
      else
        { type := "control_response",
          response :=
            { subtype := "error", requestID := requestID,
              response := none, error := "User denied permission" } }
    if stdinWriteOK then
      (.ok (marshalNestedControlResponse response), st1)
    else
      (.error "write failed", st1)
  else
    (.error ("no active process for session " ++ sessionID), st)

/-! ### RunPrompt stdout loop (claude.go) -/

/-- One stdout line of the subprocess. The raw bytes are opaque; the record
carries what json.Unmarshal would extract from them: eventType is the type
tag when the line decodes as a ClaudeEvent (none when the decode errors),
resultSessionID is the session_id when the line decodes as a ResultEvent
(none when that decode errors). -/
structure CLine where
  raw : String
  eventType : Option String
  resultSessionID : Option String
deriving DecidableEq, Repr

/-- How the stdout read loop of RunPrompt ended: killed means the callback
returned an error on a non-result line, so cmd.Process.Kill() ran and the
error is returned to the caller; finished covers both the terminal result
line (stdin closed, loop broken) and end of input. -/
inductive LoopExit where
  | killed (err : String)
  | finished
deriving DecidableEq, Repr

/-- The stdout scanner loop of ClaudeManager.RunPrompt. For a line whose
type tag is result: record the session id, invoke the callback with its
return value discarded, close stdin, and break. For every other line
(including lines that fail to decode): invoke the callback, and on a
callback error kill the process and return that error. -/
def readLoop (onEvent : CLine → Option String) :
    List CLine → String → String × LoopExit
  | [], resultSessionID => (resultSessionID, .finished)
  | l :: rest, resultSessionID =>
    match l.eventType with
    | some ty =>
      if ty = "result" then
        let rsid :=
          match l.resultSessionID with
          | some s => s
          | none => resultSessionID
        let _ := onEvent l
        (rsid, .finished)
      else
        match onEvent l with
        | some e => (resultSessionID, .killed e)
        | none => readLoop onEvent rest resultSessionID
    | none =>
      match onEvent l with
      | some e => (resultSessionID, .killed e)
      | none => readLoop onEvent rest resultSessionID

/-- Outcomes of the calls RunPrompt makes after the read loop: scanner.Err,
cmd.Wait, and whether the context was cancelled by then. -/
structure RunEnv where
  scanErr : Option String
  waitErr : Option String
  ctxCancelled : Bool
deriving DecidableEq, Repr

/-- ClaudeManager.RunPrompt from the start of the stdout loop on (spawn and
prompt delivery precede it; their failures return before any line is read).
Returns the result session id, the error returned to the caller, and
whether cmd.Process.Kill() was invoked. -/
def RunPrompt (env : RunEnv) (onEvent : CLine → Option String)
    (lines : List CLine) : String × Option String × Bool :=
  match readLoop onEvent lines "" with
  | (rsid, .killed e) => (rsid, some e, true)
  | (rsid, .finished) =>
    match env.scanErr with
    | some se => (rsid, some ("scanner: " ++ se), false)
    | none =>
      match env.waitErr with
      | some we =>
        if env.ctxCancelled then (rsid, some "context cancelled", false)
        else (rsid, some ("wait: " ++ we), false)
      | none => (rsid, none, false)

/-! ## Handlers (handlers.go)

The SSE response is a list of frames; each Fprintf of an
"event: T / data: D" block appends one frame when the client write succeeds.
Effectful call outcomes (JSON body parse, flusher support, database write
success, client write success, the subprocess run) are supplied by explicit
environment records so that every return statement of the Go handler is one
branch here. -/

/-- One SSE frame written to the client: event type and data payload text. -/
structure SSEFrame where
  event : String
  data : String
deriving DecidableEq, Repr

/-- Left brace as text. -/
def lb : String := "\x7b"

/-- Right brace as text. -/
def rb : String := "\x7d"

/-- json.Marshal of a map from strings to strings: fields in sorted key
order, no escaping needed for the values that occur here. -/
def marshalStringMap (fields : List (String × String)) : String :=
  lb ++ String.intercalate ","
    ((fields.mergeSort (fun a b => decide (a.1 ≤ b.1))).map
      (fun p => "\"" ++ p.1 ++ "\":\"" ++ p.2 ++ "\"")) ++ rb

/-- The sendEvent helper inside Handlers.Prompt: marshal the payload (the
payloads used cannot fail to marshal), persist it with CreateEvent ignoring
any persistence error apart from a log line, then write the frame to the
client; only a failed client write is returned as an error. persistOK is
the outcome of the CreateEvent call, writeOK of the Fprintf. -/
def sendEventM (log : List SessionEvent) (frames : List SSEFrame)
    (sessionID promptID : String) (eventID now : Int)
    (persistOK writeOK : Bool) (eventType data : String) :
    List SessionEvent × List SSEFrame × Option String :=
  let log1 :=
    if persistOK then (CreateEvent log eventID now sessionID promptID eventType data).2
    else log
  if writeOK then
    (log1, frames ++ [{ event := eventType, data := data }], none)
  else
    (log1, frames, some "client write failed")

/-- One content block of a decoded assistant message: its type tag and, for
text blocks, the text. -/
structure CBlock where
  type : String
  text : String
deriving DecidableEq, Repr

/-- One line as seen by the Prompt streaming callback. raw is the line text;
eventType is the ClaudeEvent decode outcome; asstBlocks the content blocks
when the line decodes as an AssistantMessage; delta the (type, text) pair of
the delta when the line decodes as a ContentBlockDelta. -/
structure CbLine where
  raw : String
  eventType : Option String
  asstBlocks : Option (List CBlock)
  delta : Option (String × String)
deriving DecidableEq, Repr

/-- The in-memory state the Prompt streaming callback reads and writes: the
event table, the frames written so far, and the two accumulators. -/
structure CbState where
  log : List SessionEvent
  frames : List SSEFrame
  assistantContent : String
  toolCalls : List String
deriving DecidableEq, Repr

/-- The payload sendEvent marshals for an invalid line from the subprocess. -/
def invalidJsonPayload : String :=
  marshalStringMap [("error", "invalid JSON from Claude")]

/-- One step of the content-block accumulation inside the streaming callback:
text blocks extend the assistant content, tool_use blocks record the raw
line, other blocks are ignored. -/
def accumBlock (raw : String) (acc : CbState) (b : CBlock) : CbState :=
  if b.type = "text" then
    { acc with assistantContent := acc.assistantContent ++ b.text }
  else if b.type = "tool_use" then
    { acc with toolCalls := acc.toolCalls ++ [raw] }
  else acc

/-- The onEvent callback closed over by Handlers.Prompt: on a line that does
not decode, return the outcome of sendEvent with an error payload; otherwise
persist the raw line under type claude (a failure is only logged), write the
claude frame (a failed write is returned, ending the stream), then fold the
assistant and delta shapes into the accumulators. persistOK is the outcome
of the CreateEvent call for the claude row; errPersistOK and errWriteOK are
the sendEvent outcomes on the invalid-line path. -/
def onEventCb (sessionID promptID : String) (eventID now : Int)
    (persistOK writeOK errPersistOK errWriteOK : Bool)
    (st : CbState) (l : CbLine) : CbState × Option String :=
  match l.eventType with
  | none =>
    let sent := sendEventM st.log st.frames sessionID promptID eventID now
      errPersistOK errWriteOK "error" invalidJsonPayload
    ({ st with log := sent.1, frames := sent.2.1 }, sent.2.2)
  | some ty =>
    let log1 :=
      if persistOK then
        (CreateEvent st.log eventID now sessionID promptID "claude" l.raw).2
      else st.log
    if writeOK then
      let st1 := { st with log := log1,
                           frames := st.frames ++ [{ event := "claude", data := l.raw }] }
      let st2 :=
        if ty = "assistant" then
          match l.asstBlocks with
          | some blocks => blocks.foldl (accumBlock l.raw) st1
          | none => st1
        else if ty = "content_block_delta" then
          match l.delta with
          | some d =>
            if d.1 = "text_delta" then
              { st1 with assistantContent := st1.assistantContent ++ d.2 }
            else st1
          | none => st1
        else st1
      (st2, none)
    else
      ({ st with log := log1 }, some "client write failed")

/-- Handlers.GetEvents limit validation: default 100 when the query value is
absent or does not parse, then clamped below by 1 and above by 1000. -/
def clampLimit (limitParam : Option Int) : Int :=
  let l :=
    match limitParam with
    | some v => v
    | none => 100
  let l1 := if l < 1 then 1 else l
  if l1 > 1000 then 1000 else l1

/-- The JSON body Handlers.GetEvents writes on success. -/
structure GetEventsResponseM where
  events : List SessionEvent
  lastSequence : Int
  hasMore : Bool
  streamStatus : StreamStatus
deriving DecidableEq, Repr

/-- Error statuses Handlers.GetEvents can write. -/
inductive GetEventsErr where
  | notFound
deriving DecidableEq, Repr

/-- Handlers.GetEvents: verify the session exists, clamp the limit, fetch
limit + 1 rows past the watermark, derive hasMore, truncate to limit, report
the sequence of the last returned row (0 when none), and attach the current
stream status of the session. -/
def GetEventsHandler (db : List Session) (log : List SessionEvent)
    (sessionID : String) (sinceSequence : Int) (promptID : String)
    (limitParam : Option Int) : Except GetEventsErr GetEventsResponseM :=
  let limit := clampLimit limitParam
  match findSession db sessionID with
  | none => .error .notFound
  | some session =>
    let fetched := GetEventsSince log sessionID sinceSequence promptID (limit + 1)
    let hasMore := decide (limit.toNat < fetched.length)
    let events := if hasMore then fetched.take limit.toNat else fetched
    let lastSeq :=
      match events.getLast? with
      | some e => e.sequence
      | none => 0
    .ok { events := events, lastSequence := lastSeq, hasMore := hasMore,
          streamStatus := session.streamStatus }

/-! ### Handlers.Prompt -/

/-- Outcome of the h.claude.RunPrompt call as seen by the Prompt handler:
a normal return carrying the result session id and the optional error, or a
Go panic raised inside the call or its callback; the handler installs no
recover, so a panic propagates out of the handler (the router middleware
recovers it, but no handler code after the raise point runs). -/
inductive RunOutcome where
  | ret (claudeSessionID : String) (runErr : Option String)
  | panicked
deriving DecidableEq, Repr

/-- Outcomes of the effectful calls Handlers.Prompt makes, one field per call
site, in source order. assistantContent and toolCallsAcc are the accumulator
values the streaming callback left behind when RunPrompt returned. -/
structure PromptEnv where
  validJSON : Bool
  prompt : String
  lookupErr : Bool
  createMessageOK : Bool
  flusherOK : Bool
  connectedPersistOK : Bool
  connectedWriteOK : Bool
  run : RunOutcome
  assistantContent : String
  toolCallsAcc : List String
  assistantSaveOK : Bool
  claudeIDSaveOK : Bool
  finalPersistOK : Bool
  finalWriteOK : Bool
deriving Repr

/-- How Handlers.Prompt ended: which HTTP error it wrote before streaming,
or that the stream section ran to a return, or that a panic propagated. -/
inductive PromptExit where
  | badRequest (msg : String)
  | notFound
  | serverError
  | conflict
  | streamClosed
  | panicked
deriving DecidableEq, Repr

/-- Full handler state: the three tables plus the frames on the wire. -/
structure HState where
  sessions : List Session
  messages : List Message
  log : List SessionEvent
  frames : List SSEFrame
deriving Repr

/-- strings.TrimSpace: drop leading and trailing whitespace characters. -/
def trimSpace (s : String) : String :=
  ⟨((s.data.dropWhile Char.isWhitespace).reverse.dropWhile
      Char.isWhitespace).reverse⟩

/-- json.Marshal of the connected payload map (sorted keys). -/
def connectedPayload (sessionID promptID : String) : String :=
  marshalStringMap [("session_id", sessionID), ("prompt_id", promptID)]

/-- json.Marshal of the error payload map. -/
def errorPayload (msg : String) : String :=
  marshalStringMap [("error", msg)]

/-- json.Marshal of the done payload map. -/
def donePayload : String :=
  marshalStringMap [("status", "complete")]

/-- The assistant-message save step after the RunPrompt call: when the
accumulated content is nonempty, insert one assistant Message carrying the
marshaled accumulated tool calls when any exist; an insert failure is only
logged. Runs on the success and the error return of RunPrompt alike. -/
def saveAssistant (st : HState) (sessionID : String) (now : Int)
    (env : PromptEnv) : HState :=
  if env.assistantContent.length > 0 then
    if env.assistantSaveOK then
      { st with messages := st.messages ++
        [{ sessionID := sessionID, role := "assistant",
           content := env.assistantContent,
           toolCalls :=
             (if env.toolCallsAcc.isEmpty then none
              else some ("[" ++ String.intercalate "," env.toolCallsAcc ++ "]")),
           createdAt := now }] }
    else st
  else st

/-- Handlers.Prompt, from the top of the function to its return, with the
streaming section summarized by env.run (the per-line behavior is onEventCb;
claim C6 is settled against it directly). Every guarded return of the Go
code is one branch; the event rowids the database would assign are taken
from eventID. A panic inside the RunPrompt call exits with the state as it
stood: the handler defers no status release. -/
def PromptHandler (st : HState) (now eventID : Int) (env : PromptEnv)
    (sessionID : String) : PromptExit × HState :=
  if ¬ env.validJSON then (.badRequest "invalid JSON", st)
  else if trimSpace env.prompt = "" then (.badRequest "prompt is required", st)
  else if env.lookupErr then (.serverError, st)
  else
    match findSession st.sessions sessionID with
    | none => (.notFound, st)
    | some session =>
      let started := StartNewPrompt st.sessions now sessionID
      match started.1 with
      | .busy => (.conflict, { st with sessions := started.2 })
      | .notFound => (.serverError, { st with sessions := started.2 })
      | .dbErr => (.serverError, { st with sessions := started.2 })
      | .ok promptID =>
        let st1 := { st with sessions := started.2 }
        if ¬ env.createMessageOK then
          (.serverError,
            { st1 with sessions :=
                UpdateSessionStreamStatus st1.sessions sessionID .idle now })
        else
          let userMsg : Message :=
            { sessionID := sessionID, role := "user", content := env.prompt,
              toolCalls := none, createdAt := now }
          let st2 := { st1 with messages := st1.messages ++ [userMsg] }
          if ¬ env.flusherOK then
            (.serverError,
              { st2 with sessions :=
                  UpdateSessionStreamStatus st2.sessions sessionID .idle now })
          else
            let sent := sendEventM st2.log st2.frames sessionID promptID eventID now
              env.connectedPersistOK env.connectedWriteOK
              "connected" (connectedPayload sessionID promptID)
            let st3 := { st2 with log := sent.1, frames := sent.2.1 }
            if sent.2.2.isSome then
              (.streamClosed,
                { st3 with sessions :=
                    UpdateSessionStreamStatus st3.sessions sessionID .idle now })
            else
              match env.run with
              | .panicked => (.panicked, st3)
              | .ret claudeSessionID runErr =>
                let st4 := saveAssistant st3 sessionID now env
                let st5 :=
                  if claudeSessionID ≠ "" ∧ session.claudeSessionID ≠ some claudeSessionID then
                    { st4 with sessions :=
                        (if env.claudeIDSaveOK then
                          UpdateSessionClaudeID st4.sessions sessionID claudeSessionID now
                         else st4.sessions) }
                  else st4
                match runErr with
                | some msg =>
                  let sent2 := sendEventM st5.log st5.frames sessionID promptID eventID now
                    env.finalPersistOK env.finalWriteOK "error" (errorPayload msg)
                  let st6 := { st5 with log := sent2.1, frames := sent2.2.1 }
                  (.streamClosed,
                    { st6 with sessions :=
                        UpdateSessionStreamStatus st6.sessions sessionID .idle now })
                | none =>
                  let sent2 := sendEventM st5.log st5.frames sessionID promptID eventID now
                    env.finalPersistOK env.finalWriteOK "done" donePayload
                  let st6 := { st5 with log := sent2.1, frames := sent2.2.1 }
                  (.streamClosed,
                    { st6 with sessions :=
                        UpdateSessionStreamStatus st6.sessions sessionID .completed now })

/-! ## Shared lemmas -/

/-- A found session carries the id it was looked up by. -/
theorem findSession_some_id {db : List Session} {sid : String} {s : Session}
    (h : findSession db sid = some s) : s.id = sid := by
  have := List.find?_some h
  simpa using this

/-- A found session is a row of the table. -/
theorem findSession_some_mem {db : List Session} {sid : String} {s : Session}
    (h : findSession db sid = some s) : s ∈ db :=
  List.mem_of_find?_eq_some h

/-- An absent session id matches no row. -/
theorem findSession_eq_none {db : List Session} {sid : String}
    (h : findSession db sid = none) : ∀ s ∈ db, s.id ≠ sid := by
  intro s hs
  have := List.find?_eq_none.mp h s hs
  simpa using this

/-- Looking up an id in a mapped table, when the map preserves ids, finds the
image of the original row. -/
theorem findSession_map (f : Session → Session) (hf : ∀ s, (f s).id = s.id)
    (db : List Session) (sid : String) :
    findSession (db.map f) sid = (findSession db sid).map f := by
  induction db with
  | nil => rfl
  | cons a l ih =>
    by_cases h : a.id = sid
    · simp [findSession, List.find?_cons, hf, h]
    · simp only [findSession, List.map_cons, List.find?_cons] at *
      have h1 : ((f a).id == sid) = false := by simp [hf a, h]
      have h2 : (a.id == sid) = false := by simp [h]
      rw [h1, h2]
      exact ih

/-- Setting the stream status rewrites exactly the looked-up row. -/
theorem findSession_updateStatus {db : List Session} {sid : String} {s : Session}
    (h : findSession db sid = some s) (status : StreamStatus) (now : Int) :
    findSession (UpdateSessionStreamStatus db sid status now) sid =
      some { s with streamStatus := status, updatedAt := now } := by
  have hf : ∀ t : Session, ((fun t : Session =>
      if t.id = sid then { t with streamStatus := status, updatedAt := now }
      else t) t).id = t.id := by
    intro t
    by_cases ht : t.id = sid <;> simp [ht]
  have := findSession_map _ hf db sid
  rw [UpdateSessionStreamStatus, this, h]
  simp [findSession_some_id h]

/-- Setting the external id rewrites exactly the looked-up row. -/
theorem findSession_updateClaudeID {db : List Session} {sid : String} {s : Session}
    (h : findSession db sid = some s) (csid : String) (now : Int) :
    findSession (UpdateSessionClaudeID db sid csid now) sid =
      some { s with claudeSessionID := some csid, updatedAt := now } := by
  have hf : ∀ t : Session, ((fun t : Session =>
      if t.id = sid then { t with claudeSessionID := some csid, updatedAt := now }
      else t) t).id = t.id := by
    intro t
    by_cases ht : t.id = sid <;> simp [ht]
  have := findSession_map _ hf db sid
  rw [UpdateSessionClaudeID, this, h]
  simp [findSession_some_id h]

/-- C8: take (GetPendingRequest) is single-use: a call for a stored requestId
returns the stored pending request and removes it in the same critical
section, so a second take of the same requestId returns absent unless store
was called again for that id in between (in which case it returns the
re-stored entry). -/
theorem getPendingRequest_single_use (tbl : PendingTable) (requestID : String) :
    (GetPendingRequest tbl requestID).1 = tbl requestID ∧
    (GetPendingRequest (GetPendingRequest tbl requestID).2 requestID).1 = none ∧
    ∀ sessionID toolInput,
      (GetPendingRequest
        (StorePendingRequest (GetPendingRequest tbl requestID).2
          sessionID requestID toolInput) requestID).1 =
      some { requestID := requestID, sessionID := sessionID,
             toolInput := toolInput } := by
  unfold GetPendingRequest StorePendingRequest
  cases h : tbl requestID <;> simp [h]

/-- C4 counterexample: with a live process and an empty correlator, a deny
decision writes a line whose envelope body has subtype error, the fixed
denial text in its error field, and no inner response object at all — so
the claimed inner response object carrying behavior deny does not exist. -/
theorem sendPermissionResponse_deny_no_inner_response :
    (SendPermissionResponse { processes := ["s1"], pending := fun _ => none }
        "s1" "r1" "deny" true).1 =
      Except.ok (Json.obj [("type", Json.str "control_response"),
        ("response", Json.obj [("subtype", Json.str "error"),
          ("request_id", Json.str "r1"),
          ("error", Json.str "User denied permission")])]) ∧
    (Json.obj [("subtype", Json.str "error"), ("request_id", Json.str "r1"),
      ("error", Json.str "User denied permission")]).getField "response" = none ∧
    (Json.obj [("subtype", Json.str "error"), ("request_id", Json.str "r1"),
      ("error", Json.str "User denied permission")]).getField "behavior" = none := by
  refine ⟨rfl, rfl, rfl⟩

/-- C4 amended: when sendControlDecision (SendPermissionResponse) is invoked
with decision deny for a session with a live process and the stdin write
succeeds, it writes exactly one outbound control_response line; the denial
is encoded at the envelope-body level as subtype error with the fixed text
"User denied permission" in the error field, with no inner response object
(hence no behavior field) and no echoed tool input. -/
theorem sendPermissionResponse_deny_shape (st : ManagerState)
    (sessionID requestID : String) (hlive : sessionID ∈ st.processes) :
    (SendPermissionResponse st sessionID requestID "deny" true).1 =
      Except.ok (Json.obj [("type", Json.str "control_response"),
        ("response", Json.obj [("subtype", Json.str "error"),
          ("request_id", Json.str requestID),
          ("error", Json.str "User denied permission")])]) := by
  unfold SendPermissionResponse
  rw [if_pos hlive]
  rfl

/-- C4 witness: the deny shape at a concrete manager state. -/
theorem sendPermissionResponse_deny_shape_witness :
    (SendPermissionResponse { processes := ["sess-a"], pending := fun _ => none }
        "sess-a" "req-9" "deny" true).1 =
      Except.ok (Json.obj [("type", Json.str "control_response"),
        ("response", Json.obj [("subtype", Json.str "error"),
          ("request_id", Json.str "req-9"),
          ("error", Json.str "User denied permission")])]) :=
  sendPermissionResponse_deny_shape
    { processes := ["sess-a"], pending := fun _ => none } "sess-a" "req-9"
    (by decide)

/-- Reach into a SendPermissionResponse outcome and read one field of the
inner permission-decision object (envelope.response.response.key). -/
def decisionFieldOf (out : Except String Json) (key : String) : Option Json :=
  match out with
  | .error _ => none
  | .ok line =>
    ((line.getField "response").bind (fun body => body.getField "response")).bind
      (fun dec => dec.getField key)

/-- C7 counterexample: with a live process and no matching correlator entry,
an allow decision writes a line whose inner response object has no
updatedInput field at all — it does not equal the empty object, because the
code substitutes an empty map and the omitempty marshaling drops it. -/
theorem sendPermissionResponse_allow_absent_entry_omits_input :
    decisionFieldOf
      (SendPermissionResponse { processes := ["s1"], pending := fun _ => none }
        "s1" "r1" "allow" true).1 "updatedInput" = none ∧
    (none : Option Json) ≠ some (Json.obj []) := by
  refine ⟨rfl, by simp⟩

/-- C7 amended: for an allow decision on a session with a live process, the
written line carries an inner response object with behavior allow; its
updatedInput equals the tool input previously captured in the Permission
Correlator for that requestId whenever that input is a non-empty object; when
the correlator has no matching entry — and likewise when the captured input
is a nil or empty map — the code substitutes an empty map, which the
omitempty marshaling drops, so the written line omits the updatedInput field
entirely rather than carrying an explicit empty object. -/
theorem sendPermissionResponse_allow_updatedInput (st : ManagerState)
    (sessionID requestID : String) (hlive : sessionID ∈ st.processes) :
    decisionFieldOf
      (SendPermissionResponse st sessionID requestID "allow" true).1 "behavior" =
        some (Json.str "allow") ∧
    (∀ req m, st.pending requestID = some req → req.toolInput = some m →
      m.isEmpty = false →
      decisionFieldOf
        (SendPermissionResponse st sessionID requestID "allow" true).1
          "updatedInput" = some (Json.obj m)) ∧
    (st.pending requestID = none →
      decisionFieldOf
        (SendPermissionResponse st sessionID requestID "allow" true).1
          "updatedInput" = none) ∧
    (∀ req, st.pending requestID = some req →
      (req.toolInput = none ∨ req.toolInput = some []) →
      decisionFieldOf
        (SendPermissionResponse st sessionID requestID "allow" true).1
          "updatedInput" = none) := by
  unfold SendPermissionResponse GetPendingRequest
  rw [if_pos hlive]
  refine ⟨?_, ?_, ?_, ?_⟩
  · cases h : st.pending requestID with
    | none => simp [h, decisionFieldOf, Json.getField, marshalNestedControlResponse,
        marshalControlBody, marshalPermissionDecision]
    | some req =>
      cases him : req.toolInput with
      | none => simp [h, him, decisionFieldOf, Json.getField, marshalNestedControlResponse,
          marshalControlBody, marshalPermissionDecision]
      | some m =>
        cases m with
        | nil => simp [h, him, decisionFieldOf, Json.getField, marshalNestedControlResponse,
            marshalControlBody, marshalPermissionDecision]
        | cons a l => simp [h, him, decisionFieldOf, Json.getField, marshalNestedControlResponse,
            marshalControlBody, marshalPermissionDecision, List.isEmpty]
  · intro req m h him hne
    cases m with
    | nil => simp [List.isEmpty] at hne
    | cons a l =>
      simp [h, him, decisionFieldOf, Json.getField, marshalNestedControlResponse,
        marshalControlBody, marshalPermissionDecision, List.isEmpty]
  · intro h
    simp [h, decisionFieldOf, Json.getField, marshalNestedControlResponse,
      marshalControlBody, marshalPermissionDecision]
  · intro req h him
    rcases him with him | him <;>
      simp [h, him, decisionFieldOf, Json.getField, marshalNestedControlResponse,
        marshalControlBody, marshalPermissionDecision]

/-- C7 witness: the allow branch echoes a captured non-empty input at a
concrete manager state. -/
theorem sendPermissionResponse_allow_updatedInput_witness :
    decisionFieldOf
      (SendPermissionResponse
        { processes := ["sess-a"],
          pending := fun k =>
            if k = "req-9" then
              some { requestID := "req-9", sessionID := "sess-a",
                     toolInput := some [("path", Json.str "/tmp/x")] }
            else none }
        "sess-a" "req-9" "allow" true).1 "updatedInput" =
      some (Json.obj [("path", Json.str "/tmp/x")]) :=
  (sendPermissionResponse_allow_updatedInput
    { processes := ["sess-a"],
      pending := fun k =>
        if k = "req-9" then
          some { requestID := "req-9", sessionID := "sess-a",
                 toolInput := some [("path", Json.str "/tmp/x")] }
        else none }
    "sess-a" "req-9" (by decide)).2.1
    { requestID := "req-9", sessionID := "sess-a",
      toolInput := some [("path", Json.str "/tmp/x")] }
    [("path", Json.str "/tmp/x")] (by simp) rfl rfl

/-- The read loop kills on the first callback error among leading non-result
lines: after a prefix of non-result lines the callback accepts, a non-result
line the callback rejects ends the loop as killed with that error. -/
theorem readLoop_killed_of_callback_error (cb : CLine → Option String)
    (pre : List CLine) (l : CLine) (rest : List CLine) (e : String)
    (rsid : String)
    (hpre : ∀ x ∈ pre, x.eventType ≠ some "result" ∧ cb x = none)
    (hl : l.eventType ≠ some "result") (he : cb l = some e) :
    readLoop cb (pre ++ l :: rest) rsid = (rsid, .killed e) := by
  induction pre with
  | nil =>
    cases hty : l.eventType with
    | none => simp [readLoop, hty, he]
    | some ty =>
      have : ty ≠ "result" := by
        intro h
        exact hl (by rw [hty, h])
      simp [readLoop, hty, this, he]
  | cons x pre ih =>
    have hx := hpre x (by simp)
    have hpre2 : ∀ y ∈ pre, y.eventType ≠ some "result" ∧ cb y = none := by
      intro y hy
      exact hpre y (by simp [hy])
    cases hty : x.eventType with
    | none => simp [readLoop, hty, hx.2, ih hpre2]
    | some ty =>
      have : ty ≠ "result" := by
        intro h
        exact hx.1 (by rw [hty, h])
      simp [readLoop, hty, this, hx.2, ih hpre2]

/-- C5 counterexample: a single stdout line tagged result on which the
callback returns an error. RunPrompt still returns the result session id
with no error and without killing the process: the callback error raised on
the result line is discarded. -/
theorem runPrompt_ignores_callback_error_on_result_line :
    (fun _ : CLine => some "client gone")
      { raw := "r", eventType := some "result", resultSessionID := some "sess-1" } =
      some "client gone" ∧
    RunPrompt { scanErr := none, waitErr := none, ctxCancelled := false }
      (fun _ : CLine => some "client gone")
      [{ raw := "r", eventType := some "result", resultSessionID := some "sess-1" }] =
      ("sess-1", none, false) := by
  refine ⟨rfl, rfl⟩

/-- C5 amended: for every stdout line that is not a decoded result line, a
non-nil callback error makes RunPrompt kill the subprocess immediately and
return that error (here: after any prefix of accepted non-result lines); on
the line tagged result the callback is still invoked but its return value is
discarded and the loop ends normally. -/
theorem runPrompt_kills_on_callback_error (env : RunEnv)
    (cb : CLine → Option String) (pre : List CLine) (l : CLine)
    (rest : List CLine) (e : String)
    (hpre : ∀ x ∈ pre, x.eventType ≠ some "result" ∧ cb x = none)
    (hl : l.eventType ≠ some "result") (he : cb l = some e) :
    RunPrompt env cb (pre ++ l :: rest) = ("", some e, true) := by
  unfold RunPrompt
  rw [readLoop_killed_of_callback_error cb pre l rest e "" hpre hl he]

/-- C5 witness: the kill-and-propagate path at a concrete line list. -/
theorem runPrompt_kills_on_callback_error_witness :
    RunPrompt { scanErr := none, waitErr := none, ctxCancelled := false }
      (fun _ : CLine => some "boom")
      ([] ++ { raw := "x", eventType := none, resultSessionID := none } :: []) =
      ("", some "boom", true) :=
  runPrompt_kills_on_callback_error
    { scanErr := none, waitErr := none, ctxCancelled := false }
    (fun _ : CLine => some "boom") []
    { raw := "x", eventType := none, resultSessionID := none } [] "boom"
    (by simp) (by simp) rfl

/-- The accumulation fold touches only the two accumulators: the event table
and the frames written to the client are unchanged by it. -/
theorem accumBlocks_preserves_log_frames (raw : String) (blocks : List CBlock)
    (acc : CbState) :
    (blocks.foldl (accumBlock raw) acc).log = acc.log ∧
    (blocks.foldl (accumBlock raw) acc).frames = acc.frames := by
  induction blocks generalizing acc with
  | nil => exact ⟨rfl, rfl⟩
  | cons b bs ih =>
    have step : (accumBlock raw acc b).log = acc.log ∧
        (accumBlock raw acc b).frames = acc.frames := by
      unfold accumBlock
      split
      · exact ⟨rfl, rfl⟩
      · split
        · exact ⟨rfl, rfl⟩
        · exact ⟨rfl, rfl⟩
    have := ih (accumBlock raw acc b)
    simp only [List.foldl_cons]
    exact ⟨this.1.trans step.1, this.2.trans step.2⟩

/-- C6: a failed durable append never terminates the stream and is never
surfaced to the client. For the sendEvent helper: with the persist call
failing, the frames written and the returned error are identical to the
successful-persist run, and with a working client write the frame still goes
out with no error. For the streaming callback: on a decodable line with a
working client write but a failed persist, the raw line is still written as
a claude frame, the callback returns no error (the stream continues), no
error frame is emitted, and the event table is left as it was. -/
theorem persist_failure_nonfatal (sessionID promptID : String)
    (eventID now : Int) :
    (∀ (log : List SessionEvent) (frames : List SSEFrame)
        (writeOK : Bool) (eventType data : String),
      (sendEventM log frames sessionID promptID eventID now false writeOK
          eventType data).2 =
        (sendEventM log frames sessionID promptID eventID now true writeOK
          eventType data).2 ∧
      (sendEventM log frames sessionID promptID eventID now false true
          eventType data) =
        (log, frames ++ [{ event := eventType, data := data }], none)) ∧
    (∀ (st : CbState) (l : CbLine) (ty : String) (epOK ewOK : Bool),
      l.eventType = some ty →
      (onEventCb sessionID promptID eventID now false true epOK ewOK st l).2 =
          none ∧
      (onEventCb sessionID promptID eventID now false true epOK ewOK
          st l).1.frames =
        st.frames ++ [{ event := "claude", data := l.raw }] ∧
      (onEventCb sessionID promptID eventID now false true epOK ewOK
          st l).1.log = st.log) := by
  constructor
  · intro log frames writeOK eventType data
    constructor
    · unfold sendEventM
      cases writeOK <;> simp
    · unfold sendEventM
      simp
  · intro st l ty epOK ewOK hty
    have key : ∀ st1 : CbState,
        ((if ty = "assistant" then
            match l.asstBlocks with
            | some blocks => blocks.foldl (accumBlock l.raw) st1
            | none => st1
          else if ty = "content_block_delta" then
            match l.delta with
            | some d =>
              if d.1 = "text_delta" then
                { st1 with assistantContent := st1.assistantContent ++ d.2 }
              else st1
            | none => st1
          else st1).log = st1.log ∧
         (if ty = "assistant" then
            match l.asstBlocks with
            | some blocks => blocks.foldl (accumBlock l.raw) st1
            | none => st1
          else if ty = "content_block_delta" then
            match l.delta with
            | some d =>
              if d.1 = "text_delta" then
                { st1 with assistantContent := st1.assistantContent ++ d.2 }
              else st1
            | none => st1
          else st1).frames = st1.frames) := by
      intro st1
      split
      · cases l.asstBlocks with
        | none => exact ⟨rfl, rfl⟩
        | some blocks =>
          exact ⟨(accumBlocks_preserves_log_frames l.raw blocks st1).1,
            (accumBlocks_preserves_log_frames l.raw blocks st1).2⟩
      · split
        · cases l.delta with
          | none => exact ⟨rfl, rfl⟩
          | some d =>
            dsimp only
            constructor
            · split
              · rfl
              · rfl
            · split
              · rfl
              · rfl
        · exact ⟨rfl, rfl⟩
    refine ⟨?_, ?_, ?_⟩
    · show (onEventCb sessionID promptID eventID now false true epOK ewOK st l).2 = none
      unfold onEventCb
      rw [hty]
      rfl
    · show (onEventCb sessionID promptID eventID now false true epOK ewOK st l).1.frames = _
      unfold onEventCb
      rw [hty]
      exact (key _).2
    · show (onEventCb sessionID promptID eventID now false true epOK ewOK st l).1.log = _
      unfold onEventCb
      rw [hty]
      exact (key _).1

/-- C6 witness: the callback keeps streaming past a failed append at a
concrete state and line. -/
theorem persist_failure_nonfatal_witness :
    (onEventCb "s" "s-1" 0 0 false true true true
      { log := [], frames := [], assistantContent := "", toolCalls := [] }
      { raw := "ln", eventType := some "assistant", asstBlocks := none,
        delta := none }).2 = none ∧
    (onEventCb "s" "s-1" 0 0 false true true true
      { log := [], frames := [], assistantContent := "", toolCalls := [] }
      { raw := "ln", eventType := some "assistant", asstBlocks := none,
        delta := none }).1.frames =
      [] ++ [{ event := "claude", data := "ln" }] ∧
    (onEventCb "s" "s-1" 0 0 false true true true
      { log := [], frames := [], assistantContent := "", toolCalls := [] }
      { raw := "ln", eventType := some "assistant", asstBlocks := none,
        delta := none }).1.log = [] :=
  (persist_failure_nonfatal "s" "s-1" 0 0).2
    { log := [], frames := [], assistantContent := "", toolCalls := [] }
    { raw := "ln", eventType := some "assistant", asstBlocks := none,
      delta := none } "assistant" true true rfl

/-! ## C2: gap-free sequence assignment -/

/-- The sequence values 1, 2, ..., n. -/
def seqRange (n : Nat) : List Int :=
  (List.range n).map (fun i : Nat => (i : Int) + 1)

/-- Iterated CreateEvent for one (session, prompt) scope; each entry of args
supplies the rowid, timestamp, event type and payload of one append. -/
def appendEvents (log : List SessionEvent) (sessionID promptID : String) :
    List (Int × Int × String × String) → List SessionEvent
  | [] => log
  | a :: rest =>
    appendEvents
      (CreateEvent log a.1 a.2.1 sessionID promptID a.2.2.1 a.2.2.2).2
      sessionID promptID rest

theorem sqlMax_append (xs : List Int) (x : Int) :
    sqlMax (xs ++ [x]) =
      some (match sqlMax xs with
            | none => x
            | some m => max m x) := by
  unfold sqlMax
  rw [List.foldl_append]
  cases List.foldl (fun acc y =>
    match acc with
    | none => some y
    | some m => some (max m y)) none xs <;> rfl

theorem sqlMax_seqRange (n : Nat) :
    sqlMax (seqRange n) = if n = 0 then none else some (n : Int) := by
  induction n with
  | zero => rfl
  | succ k ih =>
    have hr : seqRange (k + 1) = seqRange k ++ [(k : Int) + 1] := by
      unfold seqRange
      rw [List.range_succ, List.map_append]
      rfl
    rw [hr, sqlMax_append, ih]
    cases k with
    | zero => simp
    | succ j =>
      simp only [Nat.succ_ne_zero, if_neg, if_false]
      have : max ((j + 1 : Nat) : Int) (((j + 1 : Nat) : Int) + 1) =
          ((j + 1 : Nat) : Int) + 1 := max_eq_right (by omega)
      push_cast at *
      simp [this]

theorem eventsFor_append (log : List SessionEvent) (e : SessionEvent)
    (sid pid : String) :
    eventsFor (log ++ [e]) sid pid =
      eventsFor log sid pid ++
        (if e.sessionID = sid ∧ e.promptID = pid then [e] else []) := by
  unfold eventsFor
  rw [List.filter_append]
  by_cases h : e.sessionID = sid ∧ e.promptID = pid <;> simp [h]

theorem nextSequence_of_seqRange {log : List SessionEvent} {sid pid : String}
    {k : Nat}
    (h : (eventsFor log sid pid).map SessionEvent.sequence = seqRange k) :
    nextSequence log sid pid = (k : Int) + 1 := by
  unfold nextSequence
  rw [h, sqlMax_seqRange]
  cases k with
  | zero => rfl
  | succ j => simp

theorem appendEvents_seqs (sid pid : String)
    (args : List (Int × Int × String × String)) :
    ∀ (log : List SessionEvent) (k : Nat),
      (eventsFor log sid pid).map SessionEvent.sequence = seqRange k →
      (eventsFor (appendEvents log sid pid args) sid pid).map
          SessionEvent.sequence = seqRange (k + args.length) := by
  induction args with
  | nil =>
    intro log k h
    simpa using h
  | cons a rest ih =>
    intro log k h
    have hnext : nextSequence log sid pid = (k : Int) + 1 :=
      nextSequence_of_seqRange h
    have hstep : (eventsFor (CreateEvent log a.1 a.2.1 sid pid a.2.2.1
        a.2.2.2).2 sid pid).map SessionEvent.sequence = seqRange (k + 1) := by
      unfold CreateEvent
      rw [eventsFor_append, if_pos ⟨rfl, rfl⟩, List.map_append, h, hnext]
      unfold seqRange
      rw [List.range_succ, List.map_append]
      rfl
    have := ih _ (k + 1) hstep
    rw [appendEvents, this]
    congr 1
    simp
    omega

/-- C2: for a fixed (sessionId, promptId) with no prior events, N successful
CreateEvent calls assign the sequence numbers 1..N in order — strictly
increasing, no gaps, no duplicates — and each single append assigns
sequence = 1 + the current maximum sequence of that pair (0 when the pair
has no events), read and inserted within one transaction. -/
theorem createEvent_sequences_gap_free (log : List SessionEvent)
    (sid pid : String) (args : List (Int × Int × String × String))
    (hempty : eventsFor log sid pid = []) :
    (eventsFor (appendEvents log sid pid args) sid pid).map
        SessionEvent.sequence = seqRange args.length ∧
    List.Pairwise (· < ·)
      ((eventsFor (appendEvents log sid pid args) sid pid).map
        SessionEvent.sequence) ∧
    (∀ (log2 : List SessionEvent) (id2 now2 : Int) (ty d : String),
      (CreateEvent log2 id2 now2 sid pid ty d).1.sequence =
        (sqlMax ((eventsFor log2 sid pid).map SessionEvent.sequence)).getD 0
          + 1) := by
  have h0 : (eventsFor log sid pid).map SessionEvent.sequence = seqRange 0 := by
    rw [hempty]
    rfl
  have hmain := appendEvents_seqs sid pid args log 0 h0
  rw [Nat.zero_add] at hmain
  refine ⟨hmain, ?_, ?_⟩
  · rw [hmain]
    unfold seqRange
    exact List.Pairwise.map _ (fun a b hab => by omega)
      (List.pairwise_lt_range _)
  · intro log2 id2 now2 ty d
    rfl

/-- C2 witness: three appends to a fresh scope yield sequences 1, 2, 3. -/
theorem createEvent_sequences_gap_free_witness :
    eventsFor [] "s" "s-1" = [] ∧
    (eventsFor (appendEvents [] "s" "s-1"
        [(1, 10, "connected", "a"), (2, 11, "claude", "b"),
         (3, 12, "done", "c")]) "s" "s-1").map SessionEvent.sequence =
      seqRange 3 :=
  ⟨rfl,
    (createEvent_sequences_gap_free [] "s" "s-1"
      [(1, 10, "connected", "a"), (2, 11, "claude", "b"), (3, 12, "done", "c")]
      rfl).1⟩

/-! ## C1: claimPrompt contract -/

/-- The row map of the claim UPDATE preserves ids. -/
theorem claimUpdate_preserves_id (now : Int) (sid : String) (s : Session) :
    ((fun t : Session =>
      if t.id = sid ∧ t.streamStatus ≠ StreamStatus.streaming then
        { t with streamStatus := StreamStatus.streaming,
                 promptSequence := t.promptSequence + 1, updatedAt := now }
      else t) s).id = s.id := by
  by_cases h : s.id = sid ∧ s.streamStatus ≠ StreamStatus.streaming <;> simp [h]

/-- With unique ids, a busy looked-up row makes the conditional UPDATE
touch nothing. -/
theorem claimRowsAffected_eq_zero_of_busy {db : List Session} {sid : String}
    {s : Session} (hnodup : (db.map Session.id).Nodup)
    (hfind : findSession db sid = some s)
    (hbusy : s.streamStatus = StreamStatus.streaming) :
    claimRowsAffected db sid = 0 := by
  unfold claimRowsAffected
  rw [List.length_eq_zero]
  rw [List.filter_eq_nil_iff]
  intro t ht
  simp only [decide_eq_true_eq]
  rintro ⟨hid, hst⟩
  have : t = s :=
    List.inj_on_of_nodup_map hnodup ht (findSession_some_mem hfind)
      (by rw [hid, findSession_some_id hfind])
  exact hst (this ▸ hbusy)

/-- C1: claimPrompt (StartNewPrompt) on a sessions table with unique ids:
an absent id returns NotFound with the table unchanged; a session already
streaming returns Busy with the table unchanged; otherwise the claim
atomically sets streamStatus to streaming and increments promptSequence by
one, returns the promptId sessionId ++ "-" ++ newSequenceValue, leaves the
claimed row with the new status and counter, and leaves every other row
untouched. -/
theorem startNewPrompt_contract (db : List Session) (now : Int) (sid : String)
    (hnodup : (db.map Session.id).Nodup) :
    (findSession db sid = none →
      StartNewPrompt db now sid = (.notFound, db)) ∧
    (∀ s, findSession db sid = some s →
      s.streamStatus = StreamStatus.streaming →
      StartNewPrompt db now sid = (.busy, db)) ∧
    (∀ s, findSession db sid = some s →
      s.streamStatus ≠ StreamStatus.streaming →
      StartNewPrompt db now sid =
        (.ok (sid ++ "-" ++ toString (s.promptSequence + 1)),
          claimUpdate db now sid) ∧
      findSession (claimUpdate db now sid) sid =
        some { s with streamStatus := StreamStatus.streaming,
                      promptSequence := s.promptSequence + 1,
                      updatedAt := now } ∧
      (∀ t ∈ db, t.id ≠ sid → t ∈ claimUpdate db now sid)) := by
  refine ⟨?_, ?_, ?_⟩
  · intro hnone
    have hzero : claimRowsAffected db sid = 0 := by
      unfold claimRowsAffected
      rw [List.length_eq_zero, List.filter_eq_nil_iff]
      intro t ht
      simp only [decide_eq_true_eq]
      rintro ⟨hid, _⟩
      exact findSession_eq_none hnone t ht hid
    unfold StartNewPrompt
    rw [if_pos hzero, hnone]
  · intro s hfind hbusy
    have hzero := claimRowsAffected_eq_zero_of_busy hnodup hfind hbusy
    unfold StartNewPrompt
    rw [if_pos hzero, hfind]
  · intro s hfind hidle
    have hsid := findSession_some_id hfind
    have hmem := findSession_some_mem hfind
    have hpred : decide (s.id = sid ∧ s.streamStatus ≠ StreamStatus.streaming)
        = true := by
      simp [hsid, hidle]
    have hnonzero : claimRowsAffected db sid ≠ 0 := by
      unfold claimRowsAffected
      intro hlen
      rw [List.length_eq_zero, List.filter_eq_nil_iff] at hlen
      exact absurd hpred (by simpa using hlen s hmem)
    have hfound : findSession (claimUpdate db now sid) sid =
        some { s with streamStatus := StreamStatus.streaming,
                      promptSequence := s.promptSequence + 1,
                      updatedAt := now } := by
      unfold claimUpdate
      rw [findSession_map _ (claimUpdate_preserves_id now sid) db sid, hfind]
      simp [hsid, hidle]
    refine ⟨?_, hfound, ?_⟩
    · unfold StartNewPrompt
      rw [if_neg hnonzero]
      dsimp only
      rw [hfound]
    · intro t ht htid
      have ht2 : (fun u : Session =>
          if u.id = sid ∧ u.streamStatus ≠ StreamStatus.streaming then
            { u with streamStatus := StreamStatus.streaming,
                     promptSequence := u.promptSequence + 1, updatedAt := now }
          else u) t = t := by
        show (if t.id = sid ∧ t.streamStatus ≠ StreamStatus.streaming then
          { t with streamStatus := StreamStatus.streaming,
                   promptSequence := t.promptSequence + 1, updatedAt := now }
          else t) = t
        rw [if_neg]
        rintro ⟨hid, _⟩
        exact htid hid
      unfold claimUpdate
      rw [← ht2]
      exact List.mem_map_of_mem _ ht

/-- C1 witness: the three branches at concrete one-row tables. -/
theorem startNewPrompt_contract_witness :
    StartNewPrompt [⟨"a", none, none, none, .idle, 0, 0, 0⟩] 5 "b" =
      (.notFound, [⟨"a", none, none, none, .idle, 0, 0, 0⟩]) ∧
    StartNewPrompt [⟨"a", none, none, none, .streaming, 3, 0, 0⟩] 5 "a" =
      (.busy, [⟨"a", none, none, none, .streaming, 3, 0, 0⟩]) ∧
    StartNewPrompt [⟨"a", none, none, none, .idle, 0, 0, 0⟩] 5 "a" =
      (.ok ("a" ++ "-" ++ toString ((0 : Int) + 1)),
        claimUpdate [⟨"a", none, none, none, .idle, 0, 0, 0⟩] 5 "a") := by
  refine ⟨?_, ?_, ?_⟩
  · exact (startNewPrompt_contract _ 5 "b" (by decide)).1 rfl
  · exact (startNewPrompt_contract _ 5 "a" (by decide)).2.1 _ rfl (by decide)
  · exact ((startNewPrompt_contract [⟨"a", none, none, none, .idle, 0, 0, 0⟩]
      5 "a" (by decide)).2.2 ⟨"a", none, none, none, .idle, 0, 0, 0⟩ rfl
      (by decide)).1

/-! ## C3: release of the prompt slot on handler exit -/

/-- A successful claim leaves a row for the claimed id in the table the
claim returned. -/
theorem startNewPrompt_ok_found {db : List Session} {now : Int}
    {sid pid : String}
    (h : (StartNewPrompt db now sid).1 = .ok pid) :
    ∃ s, findSession (StartNewPrompt db now sid).2 sid = some s := by
  unfold StartNewPrompt at *
  by_cases hz : claimRowsAffected db sid = 0
  · rw [if_pos hz] at h ⊢
    cases hf : findSession db sid <;> rw [hf] at h <;> simp at h
  · rw [if_neg hz] at h ⊢
    dsimp only at h ⊢
    cases hf : findSession (claimUpdate db now sid) sid
    · rw [hf] at h
      simp at h
    · rw [hf]
      exact ⟨_, rfl⟩

/-- The assistant-message save step touches only the messages table. -/
theorem saveAssistant_sessions (st : HState) (sid : String) (now : Int)
    (env : PromptEnv) :
    (saveAssistant st sid now env).sessions = st.sessions := by
  unfold saveAssistant
  split
  · split
    · rfl
    · rfl
  · rfl

/-- C3 counterexample: a run in which every step succeeds up to the
subprocess call and a panic is raised inside it (or its callback). The
handler, which installs no deferred release, exits by propagating the panic
and leaves the claimed session at streamStatus streaming — wedged until a
process restart. -/
theorem prompt_panic_leaves_streaming :
    (PromptHandler ⟨[⟨"s1", none, none, none, .idle, 0, 0, 0⟩], [], [], []⟩ 7 1
      ⟨true, "hi", false, true, true, true, true, .panicked, "", [], true,
        true, true, true⟩ "s1").1 = .panicked ∧
    findSession
      (PromptHandler ⟨[⟨"s1", none, none, none, .idle, 0, 0, 0⟩], [], [], []⟩
        7 1 ⟨true, "hi", false, true, true, true, true, .panicked, "", [],
          true, true, true, true⟩ "s1").2.sessions "s1" =
      some ⟨"s1", none, none, none, .streaming, 1, 0, 7⟩ := by
  exact ⟨rfl, rfl⟩

/-- C3 amended: every terminating execution of the prompt stream handler
that successfully claimed the prompt slot and does not panic sets the
streamStatus of the session back to idle or completed before it exits — on
success, subprocess error and client disconnect mid-stream alike; a Go
panic, however, bypasses the release, because the handler performs it on
each return path rather than as a deferred cleanup. -/
theorem prompt_releases_on_nonpanic_exit (st : HState) (now eventID : Int)
    (env : PromptEnv) (sid pid : String)
    (hvalid : env.validJSON = true)
    (hprompt : trimSpace env.prompt ≠ "")
    (hlook : env.lookupErr = false)
    (hclaim : (StartNewPrompt st.sessions now sid).1 = .ok pid)
    (hnopanic : env.run ≠ .panicked) :
    ∃ s, findSession (PromptHandler st now eventID env sid).2.sessions sid =
        some s ∧
      (s.streamStatus = StreamStatus.idle ∨
        s.streamStatus = StreamStatus.completed) := by
  have hz : claimRowsAffected st.sessions sid ≠ 0 := by
    intro hz
    unfold StartNewPrompt at hclaim
    rw [if_pos hz] at hclaim
    cases hf : findSession st.sessions sid <;> rw [hf] at hclaim <;>
      simp at hclaim
  have hs0x : ∃ s0, findSession st.sessions sid = some s0 := by
    cases hf : findSession st.sessions sid with
    | none =>
      exfalso
      apply hz
      unfold claimRowsAffected
      rw [List.length_eq_zero, List.filter_eq_nil_iff]
      intro t ht
      simp only [decide_eq_true_eq]
      rintro ⟨hid, _⟩
      exact findSession_eq_none hf t ht hid
    | some s0 => exact ⟨s0, rfl⟩
  obtain ⟨s0, hs0⟩ := hs0x
  obtain ⟨s1, hfound1⟩ := startNewPrompt_ok_found hclaim
  unfold PromptHandler
  rw [if_neg (by simp [hvalid]), if_neg hprompt, if_neg (by simp [hlook]),
    hs0]
  dsimp only
  rw [hclaim]
  dsimp only
  by_cases hcm : env.createMessageOK
  case neg =>
    rw [if_pos (by simp [hcm])]
    exact ⟨_, findSession_updateStatus hfound1 .idle now, Or.inl rfl⟩
  case pos =>
  rw [if_neg (by simp [hcm])]
  by_cases hfl : env.flusherOK
  case neg =>
    rw [if_pos (by simp [hfl])]
    exact ⟨_, findSession_updateStatus hfound1 .idle now, Or.inl rfl⟩
  case pos =>
  rw [if_neg (by simp [hfl])]
  by_cases hcw : env.connectedWriteOK
  case neg =>
    rw [if_pos (by simp [sendEventM, hcw])]
    exact ⟨_, findSession_updateStatus hfound1 .idle now, Or.inl rfl⟩
  case pos =>
  rw [if_neg (by simp [sendEventM, hcw])]
  cases hrun : env.run with
  | panicked => exact absurd hrun hnopanic
  | ret csid runErr =>
    dsimp only
    simp only [saveAssistant_sessions]
    by_cases hcs : csid ≠ "" ∧ s0.claudeSessionID ≠ some csid
    · rw [if_pos hcs]
      by_cases hsave : env.claudeIDSaveOK
      · rw [if_pos (by simp [hsave])]
        cases runErr with
        | some msg =>
          exact ⟨_, findSession_updateStatus
            (findSession_updateClaudeID
              (by exact hfound1) csid now) .idle now, Or.inl rfl⟩
        | none =>
          exact ⟨_, findSession_updateStatus
            (findSession_updateClaudeID
              (by exact hfound1) csid now) .completed now, Or.inr rfl⟩
      · rw [if_neg (by simp [hsave])]
        cases runErr with
        | some msg =>
          exact ⟨_, findSession_updateStatus (by exact hfound1) .idle now,
            Or.inl rfl⟩
        | none =>
          exact ⟨_, findSession_updateStatus (by exact hfound1) .completed now,
            Or.inr rfl⟩
    · rw [if_neg hcs]
      cases runErr with
      | some msg =>
        exact ⟨_, findSession_updateStatus
          (by try simp only [saveAssistant_sessions]
              exact hfound1) .idle now, Or.inl rfl⟩
      | none =>
        exact ⟨_, findSession_updateStatus
          (by try simp only [saveAssistant_sessions]
              exact hfound1) .completed now, Or.inr rfl⟩

/-- C3 witness: a fully successful streaming run releases the slot to
completed at a concrete state. -/
theorem prompt_releases_on_nonpanic_exit_witness :
    ∃ s, findSession
      (PromptHandler ⟨[⟨"s1", none, none, none, .idle, 0, 0, 0⟩], [], [], []⟩
        7 1 ⟨true, "hi", false, true, true, true, true, .ret "" none, "ok",
          [], true, true, true, true⟩ "s1").2.sessions "s1" = some s ∧
      (s.streamStatus = StreamStatus.idle ∨
        s.streamStatus = StreamStatus.completed) :=
  prompt_releases_on_nonpanic_exit
    ⟨[⟨"s1", none, none, none, .idle, 0, 0, 0⟩], [], [], []⟩ 7 1
    ⟨true, "hi", false, true, true, true, true, .ret "" none, "ok", [], true,
      true, true, true⟩ "s1" "s1-1"
    rfl (by decide) rfl rfl (by decide)

/-! ## C9 and C10: the reconnection read path -/

/-- The number of rows matching a GetEventsSince call with no LIMIT (a
negative limit is no limit for the embedded database). -/
def matchedCount (log : List SessionEvent) (sid : String) (since : Int)
    (pid : String) : Nat :=
  (GetEventsSince log sid since pid (-1)).length

theorem clampLimit_bounds (p : Option Int) :
    1 ≤ clampLimit p ∧ clampLimit p ≤ 1000 := by
  unfold clampLimit
  cases p with
  | none => decide
  | some v =>
    dsimp only
    split_ifs <;> omega

theorem sqlLimit_of_nonneg {limit : Int} (h : 0 ≤ limit)
    (rows : List SessionEvent) : sqlLimit limit rows = rows.take limit.toNat := by
  unfold sqlLimit
  rw [if_neg (by omega)]

theorem sqlLimit_of_neg {limit : Int} (h : limit < 0)
    (rows : List SessionEvent) : sqlLimit limit rows = rows :=
  if_pos h

theorem getEventsSince_length (log : List SessionEvent) (sid : String)
    (since : Int) (pid : String) {limit : Int} (h : 0 ≤ limit) :
    (GetEventsSince log sid since pid limit).length =
      min limit.toNat (matchedCount log sid since pid) := by
  unfold GetEventsSince matchedCount GetEventsSince
  by_cases hpid : pid ≠ ""
  · rw [if_pos hpid, if_pos hpid, sqlLimit_of_nonneg h,
      sqlLimit_of_neg (by omega), List.length_take]
  · rw [if_neg hpid, if_neg hpid, sqlLimit_of_nonneg h,
      sqlLimit_of_neg (by omega), List.length_take]

theorem getEventsSince_sorted (log : List SessionEvent) (sid : String)
    (since : Int) (pid : String) (limit : Int) :
    (pid ≠ "" → List.Sorted seqLE (GetEventsSince log sid since pid limit)) ∧
    (pid = "" →
      List.Sorted promptSeqLE (GetEventsSince log sid since pid limit)) := by
  constructor
  · intro hpid
    unfold GetEventsSince
    rw [if_pos hpid]
    unfold sqlLimit
    split
    · exact List.sorted_insertionSort seqLE _
    · exact (List.sorted_insertionSort seqLE _).sublist
        (List.take_sublist _ _)
  · intro hpid
    unfold GetEventsSince
    rw [if_neg (by simp [hpid])]
    unfold sqlLimit
    split
    · exact List.sorted_insertionSort promptSeqLE _
    · exact (List.sorted_insertionSort promptSeqLE _).sublist
        (List.take_sublist _ _)

/-- C9 counterexample: a session with two prompts where prompt_id is
omitted. The returned per-prompt sequences are 1, 2, 1 — ordered by
promptId then sequence, not in globally ascending sequence order, so the
claimed ascending sequence order fails for this GetEvents call. -/
theorem getEvents_not_globally_ascending :
    (match GetEventsHandler [⟨"s", none, none, none, .idle, 0, 0, 0⟩]
        [⟨1, "s", "s-1", 1, "claude", "a", 0⟩,
         ⟨2, "s", "s-1", 2, "claude", "b", 0⟩,
         ⟨3, "s", "s-2", 1, "claude", "c", 0⟩] "s" 0 "" none with
      | .ok r => r.events.map SessionEvent.sequence
      | .error _ => []) = [1, 2, 1] ∧
    ¬ List.Pairwise (· ≤ ·) ([1, 2, 1] : List Int) := by
  exact ⟨rfl, by decide⟩

/-- C9 amended: GetEvents clamps the client-supplied limit to [1, 1000] with
default 100, fetches limit + 1 events past the watermark, returns at most
limit events with hasMore true exactly when more than limit events matched,
returns lastSequence equal to the sequence of the last returned event (0
when none), together with the current streamStatus of the session; the
returned events are in ascending sequence order when a prompt_id is
supplied, while with prompt_id omitted they are ordered by promptId then
sequence, which need not be globally ascending in sequence. -/
theorem getEvents_paging_contract (db : List Session)
    (log : List SessionEvent) (sid : String) (since : Int) (pid : String)
    (limitParam : Option Int) (s : Session)
    (hfind : findSession db sid = some s) :
    (1 ≤ clampLimit limitParam ∧ clampLimit limitParam ≤ 1000 ∧
      clampLimit none = 100) ∧
    ∃ r, GetEventsHandler db log sid since pid limitParam = .ok r ∧
      r.streamStatus = s.streamStatus ∧
      r.events.length ≤ (clampLimit limitParam).toNat ∧
      (r.hasMore = true ↔
        (clampLimit limitParam).toNat < matchedCount log sid since pid) ∧
      (r.lastSequence = match r.events.getLast? with
        | some e => e.sequence
        | none => 0) ∧
      (pid ≠ "" → List.Sorted seqLE r.events) ∧
      (pid = "" → List.Sorted promptSeqLE r.events) := by
  have hb := clampLimit_bounds limitParam
  refine ⟨⟨hb.1, hb.2, rfl⟩, ?_⟩
  unfold GetEventsHandler
  rw [hfind]
  dsimp only
  have hlen : (GetEventsSince log sid since pid (clampLimit limitParam + 1)).length =
      min (clampLimit limitParam + 1).toNat (matchedCount log sid since pid) :=
    getEventsSince_length log sid since pid (by omega)
  refine ⟨_, rfl, rfl, ?_, ?_, rfl, ?_, ?_⟩
  · by_cases hm : (clampLimit limitParam).toNat <
        (GetEventsSince log sid since pid (clampLimit limitParam + 1)).length
    · rw [if_pos (by simpa using hm)]
      dsimp only
      rw [List.length_take]
      omega
    · rw [if_neg (by simpa using hm)]
      dsimp only
      omega
  · by_cases hm : (clampLimit limitParam).toNat <
        (GetEventsSince log sid since pid (clampLimit limitParam + 1)).length
    · simp only [decide_eq_true_eq]
      constructor
      · intro _
        omega
      · intro _
        exact hm
    · simp only [decide_eq_true_eq]
      constructor
      · intro hx
        exact absurd hx hm
      · intro hx
        exact absurd (by omega : (clampLimit limitParam).toNat <
          (GetEventsSince log sid since pid (clampLimit limitParam + 1)).length) hm
  · intro hpid
    have hs := (getEventsSince_sorted log sid since pid
      (clampLimit limitParam + 1)).1 hpid
    split
    · exact hs.sublist (List.take_sublist _ _)
    · exact hs
  · intro hpid
    have hs := (getEventsSince_sorted log sid since pid
      (clampLimit limitParam + 1)).2 hpid
    split
    · exact hs.sublist (List.take_sublist _ _)
    · exact hs

/-- C9 witness: the paging contract at a concrete session and table. -/
theorem getEvents_paging_contract_witness :
    (1 ≤ clampLimit (some 2) ∧ clampLimit (some 2) ≤ 1000 ∧
      clampLimit none = 100) ∧
    ∃ r, GetEventsHandler [⟨"s", none, none, none, .completed, 1, 0, 0⟩]
        [⟨1, "s", "s-1", 1, "claude", "a", 0⟩,
         ⟨2, "s", "s-1", 2, "claude", "b", 0⟩,
         ⟨3, "s", "s-1", 3, "claude", "c", 0⟩] "s" 0 "s-1" (some 2) = .ok r ∧
      r.streamStatus = StreamStatus.completed ∧
      r.events.length ≤ (clampLimit (some 2)).toNat ∧
      (r.hasMore = true ↔ (clampLimit (some 2)).toNat <
        matchedCount [⟨1, "s", "s-1", 1, "claude", "a", 0⟩,
          ⟨2, "s", "s-1", 2, "claude", "b", 0⟩,
          ⟨3, "s", "s-1", 3, "claude", "c", 0⟩] "s" 0 "s-1") ∧
      (r.lastSequence = match r.events.getLast? with
        | some e => e.sequence
        | none => 0) ∧
      ("s-1" ≠ "" → List.Sorted seqLE r.events) ∧
      ("s-1" = "" → List.Sorted promptSeqLE r.events) :=
  getEvents_paging_contract
    [⟨"s", none, none, none, .completed, 1, 0, 0⟩]
    [⟨1, "s", "s-1", 1, "claude", "a", 0⟩,
     ⟨2, "s", "s-1", 2, "claude", "b", 0⟩,
     ⟨3, "s", "s-1", 3, "claude", "c", 0⟩] "s" 0 "s-1" (some 2)
    ⟨"s", none, none, none, .completed, 1, 0, 0⟩ rfl

/-- C10: a GetEventsSince call with promptID empty and watermark s returns
exactly the events of the session whose own per-prompt sequence exceeds s
(ordered by promptId then sequence, capped at limit): every returned event
belongs to the session and has sequence above the watermark; every stored
event of the session with sequence at or below the watermark is excluded,
even one that belongs to a later prompt and was appended after the event
the watermark refers to; and when the limit does not truncate, every
matching event is returned. -/
theorem getEventsSince_all_prompts_watermark (log : List SessionEvent)
    (sid : String) (since : Int) (limit : Int) :
    (∀ e ∈ GetEventsSince log sid since "" limit,
      e ∈ log ∧ e.sessionID = sid ∧ since < e.sequence) ∧
    (∀ e ∈ log, e.sessionID = sid → e.sequence ≤ since →
      e ∉ GetEventsSince log sid since "" limit) ∧
    (0 ≤ limit →
      (log.filter (fun e =>
        decide (e.sessionID = sid ∧ since < e.sequence))).length ≤
          limit.toNat →
      ∀ e ∈ log, e.sessionID = sid → since < e.sequence →
        e ∈ GetEventsSince log sid since "" limit) ∧
    List.Sorted promptSeqLE (GetEventsSince log sid since "" limit) := by
  have hmem : ∀ e ∈ GetEventsSince log sid since "" limit,
      e ∈ log ∧ e.sessionID = sid ∧ since < e.sequence := by
    intro e he
    unfold GetEventsSince at he
    rw [if_neg (by simp)] at he
    unfold sqlLimit at he
    have he2 : e ∈ List.insertionSort promptSeqLE
        (log.filter fun x =>
          decide (x.sessionID = sid ∧ since < x.sequence)) := by
      by_cases hneg : limit < 0
      · rw [if_pos hneg] at he
        exact he
      · rw [if_neg hneg] at he
        exact (List.take_sublist _ _).subset he
    rw [List.mem_insertionSort] at he2
    have := List.mem_filter.mp he2
    refine ⟨this.1, ?_, ?_⟩
    · exact (of_decide_eq_true this.2).1
    · exact (of_decide_eq_true this.2).2
  refine ⟨hmem, ?_, ?_, ?_⟩
  · intro e he hsid hle habs
    have := (hmem e habs).2.2
    omega
  · intro hnn hshort e he hsid hseq
    unfold GetEventsSince
    rw [if_neg (by simp)]
    rw [sqlLimit_of_nonneg hnn]
    have hlen : (List.insertionSort promptSeqLE
        (log.filter fun x =>
          decide (x.sessionID = sid ∧ since < x.sequence))).length ≤
        limit.toNat := by
      rw [List.length_insertionSort]
      exact hshort
    rw [List.take_of_length_le hlen, List.mem_insertionSort]
    exact List.mem_filter.mpr ⟨he, by simp [hsid, hseq]⟩
  · exact (getEventsSince_sorted log sid since "" limit).2 rfl

/-- C10 witness: five events appended through CreateEvent — three for the
first prompt, then two for a second prompt — read back with watermark 2 and
no prompt filter. The first event of the second prompt has sequence 1 ≤ 2,
so it is excluded from the result even though it was appended after the
event the watermark refers to. -/
theorem getEventsSince_all_prompts_watermark_witness :
    (⟨4, "s", "s-2", 1, "claude", "d", 4⟩ : SessionEvent) ∈
      appendEvents (appendEvents [] "s" "s-1"
        [(1, 1, "claude", "a"), (2, 2, "claude", "b"), (3, 3, "claude", "c")])
        "s" "s-2" [(4, 4, "claude", "d"), (5, 5, "claude", "e")] ∧
    (⟨4, "s", "s-2", 1, "claude", "d", 4⟩ : SessionEvent) ∉
      GetEventsSince
        (appendEvents (appendEvents [] "s" "s-1"
          [(1, 1, "claude", "a"), (2, 2, "claude", "b"),
           (3, 3, "claude", "c")])
          "s" "s-2" [(4, 4, "claude", "d"), (5, 5, "claude", "e")])
        "s" 2 "" 100 :=
  ⟨by decide,
    (getEventsSince_all_prompts_watermark
      (appendEvents (appendEvents [] "s" "s-1"
        [(1, 1, "claude", "a"), (2, 2, "claude", "b"), (3, 3, "claude", "c")])
        "s" "s-2" [(4, 4, "claude", "d"), (5, 5, "claude", "e")])
      "s" 2 100).2.1
      ⟨4, "s", "s-2", 1, "claude", "d", 4⟩ (by decide) rfl (by decide)⟩

end Chai
